import Mathlib

/-!
PandaUI jukebox (`src/ui/ui.c`): sample queue producer and jukebox state machine

A shallow embedding of the callback code of `ui.c`.

* C `int` values are mathematical integers (`Int`).  Signed overflow is undefined
  behaviour in C, so the embedding describes the executions in which no `int`
  operation overflows.
* Handles handed out by the streaming library (`sp_playlist *`, `sp_track *`) are
  natural numbers; a nullable pointer variable is an `Option`.
* The streaming library is an external collaborator.  Its query functions are
  the fields of `Provider`; the commands sent to it (and to the audio module and
  the list widget) are recorded, in order, in the `trace` field of the state.
* `printf`/`fprintf` logging is left out.
* The critical section of `music_delivery` (between `pthread_mutex_lock` and
  `pthread_mutex_unlock`) is one atomic step.
* The wait of `main` on the condition variable records the blocking calls it
  makes and the clock time at which it returns; what the callback threads do
  while it is blocked is a list of timed wakeups.  `pthread_cond_timedwait` is
  the library call, described by its POSIX contract.
-/

namespace PandaUI

/-! ## Sample queue (`audio_fifo_t` of `audio.h`, filled by `music_delivery`) -/

/-- Audio format descriptor passed to `music_delivery` (fields read by the code). -/
structure sp_audioformat where
  sample_rate : Int
  channels : Int
deriving DecidableEq, Repr

/-- Modelled from the spec: the chunk type `audio_fifo_data_t` is declared in
`audio.h`, which is not among the sources.  A chunk carries its channel count,
sample rate, sample count and the buffer of signed 16-bit interleaved samples;
its place in the queue is its position in the list `audio_fifo_t.q`. -/
structure audio_fifo_data_t where
  channels : Int
  rate : Int
  nsamples : Int
  samples : List Int
deriving DecidableEq, Repr

/-- Modelled from the spec: the queue type `audio_fifo_t` is declared in
`audio.h`, which is not among the sources.  It is the ordered sequence `q` of
chunks (head first) and the running total `qlen` of buffered samples; its mutex
and condition variable are not state of the embedding. -/
structure audio_fifo_t where
  q : List audio_fifo_data_t
  qlen : Int
deriving DecidableEq, Repr

/-- Outcome of one `music_delivery` call: the returned frame count, the queue
afterwards and whether `pthread_cond_signal(&af->cond)` was executed. -/
structure delivery_result where
  ret : Int
  af : audio_fifo_t
  signalled : Bool
deriving DecidableEq, Repr

/-- The `memcpy(afd->samples, frames, s)` of `music_delivery`:
`s = num_frames * sizeof(int16_t) * channels` bytes, that is
`num_frames * channels` 16-bit samples, are copied from `frames`. -/
def copy_samples (frames : List Int) (num_frames channels : Int) : List Int :=
  frames.take (num_frames * channels).toNat

/-- The callback `music_delivery` (ui.c 391-427) on the queue `af`; `frames` is
the buffer of 16-bit samples handed in.  `malloc` is taken to succeed.  The
library delivers `num_frames ≥ 0`; the function is kept total on all integers,
a negative count following the same arithmetic as a positive one. -/
def music_delivery (af : audio_fifo_t) (format : sp_audioformat)
    (frames : List Int) (num_frames : Int) : delivery_result :=
  if num_frames = 0 then
    { ret := 0, af := af, signalled := false }
  else if af.qlen > format.sample_rate then
    { ret := 0, af := af, signalled := false }
  else
    let afd : audio_fifo_data_t :=
      { samples := copy_samples frames num_frames format.channels
        nsamples := num_frames
        rate := format.sample_rate
        channels := format.channels }
    { ret := num_frames
      af := { q := af.q ++ [afd], qlen := af.qlen + num_frames }
      signalled := true }

/-- The arguments of one `music_delivery` call. -/
structure delivery where
  format : sp_audioformat
  frames : List Int
  num_frames : Int
deriving DecidableEq, Repr

/-- The queue right after initialisation: no chunk, `qlen = 0`. -/
def empty_fifo : audio_fifo_t := { q := [], qlen := 0 }

/-- A sequence of `music_delivery` calls, first call first: the final queue and
the list of returned frame counts, in call order. -/
def deliver_all (af : audio_fifo_t) : List delivery → audio_fifo_t × List Int
  | [] => (af, [])
  | d :: ds =>
    let r := music_delivery af d.format d.frames d.num_frames
    let rest := deliver_all r.af ds
    (rest.1, r.ret :: rest.2)

/-- Sum of the sample counts of the chunks held in a queue. -/
def queued_samples (q : List audio_fifo_data_t) : Int :=
  (q.map (fun c => c.nsamples)).sum

/-! ## Jukebox state machine -/

/-- Playlist handle (`sp_playlist *`, never null when handed out by the library). -/
abbrev sp_playlist := Nat

/-- Track handle (`sp_track *`, non-null). -/
abbrev sp_track := Nat

/-- Error code of the streaming library. -/
abbrev sp_error := Int

/-- The code `SP_ERROR_OK`. -/
def SP_ERROR_OK : sp_error := 0

/-- The libc function `strcasecmp` on character lists: `0` exactly when the two
strings agree up to ASCII letter case, otherwise the difference of the first
pair of lower-cased characters that differ. -/
def strcasecmp : List Char → List Char → Int
  | [], [] => 0
  | [], b :: _ => - (b.toLower.toNat : Int)
  | a :: _, [] => (a.toLower.toNat : Int)
  | a :: as, b :: bs =>
    if a.toLower = b.toLower then strcasecmp as bs
    else (a.toLower.toNat : Int) - (b.toLower.toNat : Int)

/-- Calls made by the jukebox code to its collaborators, as recorded in the trace. -/
inductive Cmd where
  | audio_fifo_flush
  | sp_session_player_unload
  | sp_session_player_load (t : sp_track)
  | sp_session_player_play (play : Int)
  | sp_playlist_remove_tracks (pl : Option sp_playlist) (tracks : List Int)
  | sp_playlist_add_callbacks (pl : sp_playlist)
  | sp_playlist_remove_callbacks (pl : sp_playlist)
  | add_row_to_list (name : String) (numtracks : Int)
deriving DecidableEq, Repr

/-- Query functions of the streaming library, as seen during one callback. -/
structure Provider where
  sp_playlist_num_tracks : sp_playlist → Int
  sp_playlist_track : sp_playlist → Int → Option sp_track
  sp_track_error : sp_track → sp_error
  sp_playlist_name : sp_playlist → String
  sp_playlistcontainer_num_playlists : Int
  sp_playlistcontainer_playlist : Int → sp_playlist

/-- Number of slots of the global array `sp_playlist* playlists[100]` (ui.c 90). -/
def playlists_capacity : Nat := 100

/-- The global variables of `ui.c` used by the jukebox, plus the trace of the
calls issued so far (oldest first).  The list `playlists` holds the filled slots
`playlists[0 .. num_playlists-1]` of the array `playlists[100]`, so its length
is `num_playlists`; it never exceeds `playlists_capacity`, because the only
writer, `tracks_added`, has no defined result when the array is full. -/
structure Jukebox where
  g_jukeboxlist : Option sp_playlist
  g_listname : String
  g_remove_tracks : Int
  g_currenttrack : Option sp_track
  g_track_index : Int
  playlists : List sp_playlist
  trace : List Cmd
deriving DecidableEq, Repr

/-- The globals at program start, after option parsing: static storage is
zero-initialised, `main` sets `g_listname` and, with `-d`, `g_remove_tracks`. -/
def initial (listname : String) (remove_tracks : Int) : Jukebox :=
  { g_jukeboxlist := none
    g_listname := listname
    g_remove_tracks := remove_tracks
    g_currenttrack := none
    g_track_index := 0
    playlists := []
    trace := [] }

/-- The function `try_jukebox_start` (ui.c 122-165). -/
def try_jukebox_start (P : Provider) (s : Jukebox) : Jukebox :=
  match s.g_jukeboxlist with
  | none => s
  | some pl =>
    if P.sp_playlist_num_tracks pl = 0 then s
    else if P.sp_playlist_num_tracks pl < s.g_track_index then s
    else
      let t := P.sp_playlist_track pl s.g_track_index
      let s1 : Jukebox :=
        if s.g_currenttrack ≠ none ∧ t ≠ s.g_currenttrack then
          { s with
            g_currenttrack := none
            trace := s.trace ++ [Cmd.audio_fifo_flush, Cmd.sp_session_player_unload] }
        else s
      match t with
      | none => s1
      | some tr =>
        if P.sp_track_error tr ≠ SP_ERROR_OK then s1
        else if s1.g_currenttrack = some tr then s1
        else
          { s1 with
            g_currenttrack := some tr
            trace := s1.trace ++
              [Cmd.sp_session_player_load tr, Cmd.sp_session_player_play 1] }

/-- The callback `tracks_added` (ui.c 177-190); the `tracks` array and
`position` are not read by the code.  The store `playlists[num_playlists++] = pl`
(ui.c 183) is not bound-checked: with all `playlists_capacity` slots filled it
writes past the end of the array, the behaviour is undefined and the result is
`none`. -/
def tracks_added (P : Provider) (s : Jukebox) (pl : sp_playlist)
    (num_tracks : Int) : Option Jukebox :=
  let s1 : Jukebox :=
    { s with
      trace := s.trace ++ [Cmd.add_row_to_list (P.sp_playlist_name pl) num_tracks] }
  if playlists_capacity ≤ s1.playlists.length then none
  else
    let s2 : Jukebox := { s1 with playlists := s1.playlists ++ [pl] }
    if some pl ≠ s2.g_jukeboxlist then some s2
    else some (try_jukebox_start P s2)

/-- The counting loop of `tracks_removed` (ui.c 208-210) over the array
`tracks[0 .. num_tracks-1]`, started with the counter value `k`. -/
def tracks_removed_count (g_track_index : Int) : List Int → Int → Int
  | [], k => k
  | x :: rest, k =>
    tracks_removed_count g_track_index rest (if x < g_track_index then k + 1 else k)

/-- The callback `tracks_removed` (ui.c 200-217); `tracks` is the array of
removed indices, of length `num_tracks`. -/
def tracks_removed (P : Provider) (s : Jukebox) (pl : sp_playlist)
    (tracks : List Int) : Jukebox :=
  if some pl ≠ s.g_jukeboxlist then s
  else
    let k := tracks_removed_count s.g_track_index tracks 0
    try_jukebox_start P { s with g_track_index := s.g_track_index - k }

/-- The callback `tracks_moved` (ui.c 228-237). -/
def tracks_moved (P : Provider) (s : Jukebox) (pl : sp_playlist) : Jukebox :=
  if some pl ≠ s.g_jukeboxlist then s
  else try_jukebox_start P s

/-- The callback `playlist_renamed` (ui.c 245-259). -/
def playlist_renamed (P : Provider) (s : Jukebox) (pl : sp_playlist) : Jukebox :=
  let name := P.sp_playlist_name pl
  if strcasecmp name.data s.g_listname.data = 0 then
    try_jukebox_start P { s with g_jukeboxlist := some pl, g_track_index := 0 }
  else if s.g_jukeboxlist = some pl then
    { s with
      g_jukeboxlist := none
      g_currenttrack := none
      trace := s.trace ++ [Cmd.sp_session_player_unload] }
  else s

/-- The callback `playlist_added` (ui.c 283-291). -/
def playlist_added (P : Provider) (s : Jukebox) (pl : sp_playlist) : Jukebox :=
  let s1 : Jukebox := { s with trace := s.trace ++ [Cmd.sp_playlist_add_callbacks pl] }
  if strcasecmp (P.sp_playlist_name pl).data s1.g_listname.data = 0 then
    try_jukebox_start P { s1 with g_jukeboxlist := some pl }
  else s1

/-- The callback `playlist_removed` (ui.c 303-307). -/
def playlist_removed (s : Jukebox) (pl : sp_playlist) : Jukebox :=
  { s with trace := s.trace ++ [Cmd.sp_playlist_remove_callbacks pl] }

/-- Body of the `for` loop of `logged_in` (ui.c 354-361) for the index `i`. -/
def logged_in_body (P : Provider) (s : Jukebox) (i : Int) : Jukebox :=
  let pl := P.sp_playlistcontainer_playlist i
  let s1 : Jukebox := { s with trace := s.trace ++ [Cmd.sp_playlist_add_callbacks pl] }
  if strcasecmp (P.sp_playlist_name pl).data s1.g_listname.data = 0 then
    try_jukebox_start P { s1 with g_jukeboxlist := some pl }
  else s1

/-- The callback `logged_in` (ui.c 340-368); `none` is the `exit(2)` taken on a
login error.  The loop runs `i = 0, 1, ...` while
`i < sp_playlistcontainer_num_playlists(pc)`. -/
def logged_in (P : Provider) (s : Jukebox) (error : sp_error) : Option Jukebox :=
  if SP_ERROR_OK ≠ error then none
  else
    some ((List.range P.sp_playlistcontainer_num_playlists.toNat).foldl
      (fun acc i => logged_in_body P acc (i : Int)) s)

/-- The callback `metadata_updated` (ui.c 452-455). -/
def metadata_updated (P : Provider) (s : Jukebox) : Jukebox :=
  try_jukebox_start P s

/-- The callback `play_token_lost` (ui.c 463-471). -/
def play_token_lost (s : Jukebox) : Jukebox :=
  let s1 : Jukebox := { s with trace := s.trace ++ [Cmd.audio_fifo_flush] }
  if s1.g_currenttrack ≠ none then
    { s1 with
      trace := s1.trace ++ [Cmd.sp_session_player_unload]
      g_currenttrack := none }
  else s1

/-- The function `track_ended` (ui.c 508-522); the removal request carries the
one-element index array `&tracks` with `tracks = 0`. -/
def track_ended (P : Provider) (s : Jukebox) : Jukebox :=
  if s.g_currenttrack ≠ none then
    let s1 : Jukebox :=
      { s with
        g_currenttrack := none
        trace := s.trace ++ [Cmd.sp_session_player_unload] }
    if s1.g_remove_tracks ≠ 0 then
      { s1 with trace := s1.trace ++ [Cmd.sp_playlist_remove_tracks s1.g_jukeboxlist [0]] }
    else
      try_jukebox_start P { s1 with g_track_index := s1.g_track_index + 1 }
  else s

/-- The jukebox operations, with their arguments. -/
inductive Event where
  | try_jukebox_start
  | tracks_added (pl : sp_playlist) (num_tracks : Int)
  | tracks_removed (pl : sp_playlist) (tracks : List Int)
  | tracks_moved (pl : sp_playlist)
  | playlist_renamed (pl : sp_playlist)
  | playlist_added (pl : sp_playlist)
  | playlist_removed (pl : sp_playlist)
  | logged_in (error : sp_error)
  | metadata_updated
  | track_ended
  | play_token_lost
deriving DecidableEq, Repr

/-- One jukebox operation, run against the library state `P` current at that
time; `none` when the process exits (`logged_in`) or leaves defined behaviour
(`tracks_added` on a full `playlists` array). -/
def step (P : Provider) (s : Jukebox) : Event → Option Jukebox
  | Event.try_jukebox_start => some (try_jukebox_start P s)
  | Event.tracks_added pl n => tracks_added P s pl n
  | Event.tracks_removed pl tracks => some (tracks_removed P s pl tracks)
  | Event.tracks_moved pl => some (tracks_moved P s pl)
  | Event.playlist_renamed pl => some (playlist_renamed P s pl)
  | Event.playlist_added pl => some (playlist_added P s pl)
  | Event.playlist_removed pl => some (playlist_removed s pl)
  | Event.logged_in error => logged_in P s error
  | Event.metadata_updated => some (metadata_updated P s)
  | Event.track_ended => some (track_ended P s)
  | Event.play_token_lost => some (play_token_lost s)

/-- A sequence of operations, each with the library state it runs against. -/
def run (s : Jukebox) : List (Provider × Event) → Option Jukebox
  | [] => some s
  | (P, e) :: rest =>
    match step P s e with
    | none => none
    | some s1 => run s1 rest

/-- Whether a command is a `load`. -/
def Cmd.isLoad : Cmd → Bool
  | Cmd.sp_session_player_load _ => true
  | _ => false

/-- Whether a command is a `play`. -/
def Cmd.isPlay : Cmd → Bool
  | Cmd.sp_session_player_play _ => true
  | _ => false

/-! ## Control loop of `main`: the wait on the notifier (ui.c 746-764) -/

/-- The two flags guarded by `g_notify_mutex`. -/
structure Notifier where
  g_notify_do : Int
  g_playback_done : Int
deriving DecidableEq, Repr

/-- The callback `notify_main_thread` (ui.c 378-384), run on a library thread
under the mutex: it sets `g_notify_do` and signals the condition. -/
def notify_main_thread (n : Notifier) : Notifier :=
  { n with g_notify_do := 1 }

/-- The callback `end_of_track` (ui.c 435-441), run on a library thread under
the mutex: it sets `g_playback_done` and signals the condition. -/
def end_of_track (n : Notifier) : Notifier :=
  { n with g_playback_done := 1 }

/-- The two callbacks that write the notifier flags. -/
inductive Callback where
  | notify_main_thread
  | end_of_track
deriving DecidableEq, Repr

/-- The callbacks that ran, in order, while the main thread was blocked in one
wait call with the mutex released.  The empty list is a wakeup that found the
flags as they were: a spurious wakeup, or an elapsed timeout. -/
def run_callbacks (n : Notifier) : List Callback → Notifier
  | [] => n
  | Callback.notify_main_thread :: rest => run_callbacks (notify_main_thread n) rest
  | Callback.end_of_track :: rest => run_callbacks (end_of_track n) rest

/-- Blocking calls made by the wait of `main`; the timed one carries its
absolute deadline `ts`. -/
inductive WaitCall where
  | pthread_cond_wait
  | pthread_cond_timedwait (tv_sec tv_nsec : Int)
deriving DecidableEq, Repr

/-- Nanoseconds in a second: a `timespec` is valid when its `tv_nsec` lies in
`[0, NSEC_PER_SEC)`. -/
def NSEC_PER_SEC : Int := 1000000000

/-- A wakeup of the main thread while it is blocked on `g_notify_cond`: the
clock time of the wakeup, in nanoseconds of `CLOCK_REALTIME`, and the callbacks
that ran on the library threads since the thread blocked.  A wakeup with no
callback is a spurious one.  Wakeups are listed in time order and none precedes
the time at which the wait is entered. -/
structure Wake where
  time : Int
  callbacks : List Callback
deriving DecidableEq, Repr

/-- What the wait hands back to `main`: the flags, the blocking calls it made,
and the clock time (nanoseconds) at which it returned. -/
structure WaitReturn where
  flags : Notifier
  calls : List WaitCall
  time : Int
deriving DecidableEq, Repr

/-- The loop `while(!g_notify_do && !g_playback_done) pthread_cond_wait(...)`
(ui.c 748-749), entered at clock time `now`.  `wakes` lists the successive
wakeups of the blocked thread; once it is used up nothing wakes the thread any
more.  The result is `none` when the thread stays blocked. -/
def cond_wait_loop (n : Notifier) (now : Int) : List Wake → Option WaitReturn
  | [] =>
    if n.g_notify_do = 0 ∧ n.g_playback_done = 0 then none
    else some { flags := n, calls := [], time := now }
  | w :: rest =>
    if n.g_notify_do = 0 ∧ n.g_playback_done = 0 then
      (cond_wait_loop (run_callbacks n w.callbacks) w.time rest).map
        (fun r => { r with calls := WaitCall.pthread_cond_wait :: r.calls })
    else some { flags := n, calls := [], time := now }

/-- The library call `pthread_cond_timedwait(&g_notify_cond, &g_notify_mutex, &ts)`
entered at clock time `now`, by its POSIX contract: an invalid `ts` (`tv_nsec`
outside `[0, NSEC_PER_SEC)`) makes it fail with `EINVAL` at once; a deadline
already reached makes it return at once; otherwise it blocks until the first
wakeup before the deadline, or else until the deadline.  The result is the flags
and the clock time at return; `main` ignores the return code. -/
def pthread_cond_timedwait (tv_sec tv_nsec : Int) (now : Int) (n : Notifier)
    (wakes : List Wake) : Notifier × Int :=
  if tv_nsec < 0 ∨ NSEC_PER_SEC ≤ tv_nsec then (n, now)
  else if tv_sec * NSEC_PER_SEC + tv_nsec ≤ now then (n, now)
  else
    match wakes with
    | [] => (n, tv_sec * NSEC_PER_SEC + tv_nsec)
    | w :: _ =>
      if w.time < tv_sec * NSEC_PER_SEC + tv_nsec then (run_callbacks n w.callbacks, w.time)
      else (n, tv_sec * NSEC_PER_SEC + tv_nsec)

/-- The wait at the head of the loop of `main` (ui.c 747-764), entered with the
mutex held at the clock time `now_sec` seconds, `now_nsec` nanoseconds, which
the timed branch reads into `ts`.  C integer division and remainder truncate
towards zero; `tv_nsec` is not carried into `tv_sec`.  The timed branch makes
its one call and goes on, whatever the call returns. -/
def main_wait (next_timeout : Int) (now_sec now_nsec : Int) (n : Notifier)
    (wakes : List Wake) : Option WaitReturn :=
  if next_timeout = 0 then cond_wait_loop n (now_sec * NSEC_PER_SEC + now_nsec) wakes
  else
    let tv_sec := now_sec + Int.tdiv next_timeout 1000
    let tv_nsec := now_nsec + Int.tmod next_timeout 1000 * 1000000
    let r := pthread_cond_timedwait tv_sec tv_nsec (now_sec * NSEC_PER_SEC + now_nsec) n wakes
    some { flags := r.1
           calls := [WaitCall.pthread_cond_timedwait tv_sec tv_nsec]
           time := r.2 }

/-! ## Concrete library states and jukebox states used to instantiate the results -/

/-- A library state with two playlists: playlist `1` is called "hai" and holds
the tracks `10, 11, 12` (track `12` still has a load error), playlist `2` is
called "other" and is empty. -/
def demoProvider : Provider :=
  { sp_playlist_num_tracks := fun pl => if pl = 1 then 3 else 0
    sp_playlist_track := fun pl i =>
      if pl = 1 then
        (if i = 0 then some 10 else if i = 1 then some 11 else if i = 2 then some 12 else none)
      else none
    sp_track_error := fun t => if t = 12 then 1 else 0
    sp_playlist_name := fun pl => if pl = 1 then "hai" else "other"
    sp_playlistcontainer_num_playlists := 2
    sp_playlistcontainer_playlist := fun i => if i = 0 then 2 else 1 }

/-- A jukebox state for the target name "HAI": playlist handle, loaded track and
track index as given, no command issued yet. -/
def demoState (pl : Option sp_playlist) (cur : Option sp_track) (idx : Int)
    (remove_tracks : Int) : Jukebox :=
  { g_jukeboxlist := pl
    g_listname := "HAI"
    g_remove_tracks := remove_tracks
    g_currenttrack := cur
    g_track_index := idx
    playlists := []
    trace := [] }

/-- A later library state: playlist `1` has been renamed to "old" (same tracks),
playlist `2` is now called "Hai" and holds the tracks `20, 21, 22`. -/
def laterProvider : Provider :=
  { sp_playlist_num_tracks := fun _ => 3
    sp_playlist_track := fun pl i =>
      if pl = 1 then
        (if i = 0 then some 10 else if i = 1 then some 11 else if i = 2 then some 12 else none)
      else
        (if i = 0 then some 20 else if i = 1 then some 21 else if i = 2 then some 22 else none)
    sp_track_error := fun t => if t = 12 then 1 else 0
    sp_playlist_name := fun pl => if pl = 1 then "old" else "Hai"
    sp_playlistcontainer_num_playlists := 2
    sp_playlistcontainer_playlist := fun i => if i = 0 then 2 else 1 }

/-- A library state in which playlist `1` ("hai") has shrunk to the single
track `10`; there is no track at index 1 or beyond. -/
def shrunkProvider : Provider :=
  { sp_playlist_num_tracks := fun pl => if pl = 1 then 1 else 0
    sp_playlist_track := fun pl i => if pl = 1 ∧ i = 0 then some 10 else none
    sp_track_error := fun _ => 0
    sp_playlist_name := fun pl => if pl = 1 then "hai" else "other"
    sp_playlistcontainer_num_playlists := 1
    sp_playlistcontainer_playlist := fun _ => 1 }

/-! ## Sample queue: results -/

theorem deliver_all_accounting (ds : List delivery) (af : audio_fifo_t) :
    (deliver_all af ds).1.qlen = af.qlen + (deliver_all af ds).2.sum ∧
    (deliver_all af ds).1.q.map (fun c => c.nsamples) =
      af.q.map (fun c => c.nsamples) ++ (deliver_all af ds).2.filter (fun r => r ≠ 0) := by
  induction ds generalizing af with
  | nil => simp [deliver_all]
  | cons d ds ih =>
    have h := ih (music_delivery af d.format d.frames d.num_frames).af
    simp only [deliver_all]
    rw [h.1, h.2]
    unfold music_delivery
    by_cases h0 : d.num_frames = 0
    · simp [h0]
    · by_cases hq : af.qlen > d.format.sample_rate
      · simp [h0, hq]
      · simp [h0, hq]
        omega

/-- C1: for a delivery of `num_frames > 0` frames, `music_delivery` rejects
(returns 0 and leaves the queue and `qlen` as they were) exactly when the
pre-call `qlen` exceeds the format's sample rate; otherwise, so also at
`qlen = sample_rate`, it returns `num_frames`, appends at the tail one chunk with
`num_frames` samples, the format's rate and channel count, and adds `num_frames`
to `qlen`. -/
theorem music_delivery_backpressure (af : audio_fifo_t) (format : sp_audioformat)
    (frames : List Int) (num_frames : Int) (hn : 0 < num_frames) :
    (((music_delivery af format frames num_frames).ret = 0 ∧
        (music_delivery af format frames num_frames).af = af) ↔
      af.qlen > format.sample_rate) ∧
    (¬ af.qlen > format.sample_rate →
      (music_delivery af format frames num_frames).ret = num_frames ∧
      (music_delivery af format frames num_frames).af.q =
        af.q ++ [{ channels := format.channels
                   rate := format.sample_rate
                   nsamples := num_frames
                   samples := copy_samples frames num_frames format.channels }] ∧
      (music_delivery af format frames num_frames).af.qlen = af.qlen + num_frames) := by
  have h0 : num_frames ≠ 0 := by omega
  by_cases hq : af.qlen > format.sample_rate
  · simp [music_delivery, h0, hq]
  · simp [music_delivery, h0, hq]

/-- Instance of C1 at the boundary: with `qlen = 44100` and a 44100 Hz stereo
format, a delivery of 2 frames is accepted. -/
theorem music_delivery_backpressure_witness :
    (0 : Int) < 2 ∧
    (music_delivery { q := [], qlen := 44100 } { sample_rate := 44100, channels := 2 }
        [1, 2, 3, 4] 2).af.qlen = 44100 + 2 :=
  ⟨by decide,
   ((music_delivery_backpressure { q := [], qlen := 44100 }
      { sample_rate := 44100, channels := 2 } [1, 2, 3, 4] 2 (by decide)).2
      (by decide)).2.2⟩

/-- C2: after any sequence of `music_delivery` calls on the empty queue, `qlen`
is the sum of the returned (accepted) frame counts, it is the sum of the sample
counts of the queued chunks, and the queued chunks are, in order, those of the
calls that returned a non-zero count (rejected and zero-frame calls return 0
and add nothing). -/
theorem qlen_accounting (ds : List delivery) :
    (deliver_all empty_fifo ds).1.qlen = (deliver_all empty_fifo ds).2.sum ∧
    (deliver_all empty_fifo ds).1.qlen = queued_samples (deliver_all empty_fifo ds).1.q ∧
    (deliver_all empty_fifo ds).1.q.map (fun c => c.nsamples) =
      (deliver_all empty_fifo ds).2.filter (fun r => r ≠ 0) := by
  have h := deliver_all_accounting ds empty_fifo
  have hsum : ∀ l : List Int, (l.filter (fun r => r ≠ 0)).sum = l.sum := by
    intro l
    induction l with
    | nil => rfl
    | cons a l ih =>
      by_cases ha : a = 0
      · simp only [List.filter_cons, ha, ne_eq, not_true_eq_false, decide_False,
          Bool.false_eq_true, if_false, List.sum_cons, zero_add]
        exact ih
      · simp only [List.filter_cons, ha, ne_eq, not_false_eq_true, decide_True,
          if_true, List.sum_cons]
        rw [ih]
  have h1 : (deliver_all empty_fifo ds).1.qlen = (deliver_all empty_fifo ds).2.sum := by
    rw [h.1]; simp [empty_fifo]
  have h2 : (deliver_all empty_fifo ds).1.q.map (fun c => c.nsamples) =
      (deliver_all empty_fifo ds).2.filter (fun r => r ≠ 0) := by
    rw [h.2]; simp [empty_fifo]
  refine ⟨h1, ?_, h2⟩
  unfold queued_samples
  rw [h2, hsum, h1]

/-! ## Jukebox: results -/

theorem try_jukebox_start_frame (P : Provider) (s : Jukebox) :
    (try_jukebox_start P s).g_track_index = s.g_track_index ∧
    (try_jukebox_start P s).g_jukeboxlist = s.g_jukeboxlist ∧
    (try_jukebox_start P s).g_listname = s.g_listname ∧
    (try_jukebox_start P s).g_remove_tracks = s.g_remove_tracks ∧
    (try_jukebox_start P s).playlists = s.playlists := by
  unfold try_jukebox_start
  cases hj : s.g_jukeboxlist with
  | none => simp [hj]
  | some pl =>
    simp only
    split_ifs <;> (try split) <;> (try split_ifs) <;> simp_all

theorem tracks_removed_count_eq (i : Int) (L : List Int) (k : Int) :
    tracks_removed_count i L k = k + ((L.filter (fun x => x < i)).length : Int) := by
  induction L generalizing k with
  | nil => simp [tracks_removed_count]
  | cons x rest ih =>
    by_cases hx : x < i
    · simp [tracks_removed_count, ih, hx, List.filter_cons]
      omega
    · simp [tracks_removed_count, ih, hx, List.filter_cons]

/-- C3: a `tracks_removed` event on the resolved playlist with removed-index
list `L` turns the current track index `i` into `i` minus the number of entries
of `L` strictly below `i`; an event for any other playlist changes nothing. -/
theorem tracks_removed_index (P : Provider) (s : Jukebox) (pl : sp_playlist)
    (L : List Int) :
    (s.g_jukeboxlist = some pl →
      (tracks_removed P s pl L).g_track_index =
        s.g_track_index - ((L.filter (fun x => x < s.g_track_index)).length : Int)) ∧
    (s.g_jukeboxlist ≠ some pl → tracks_removed P s pl L = s) := by
  constructor
  · intro h
    simp only [tracks_removed, h, ne_eq, not_true_eq_false, if_false]
    rw [(try_jukebox_start_frame P _).1, tracks_removed_count_eq]
    simp
  · intro h
    have h2 : some pl ≠ s.g_jukeboxlist := fun e => h e.symm
    simp [tracks_removed, h2]

/-- Instances of C3: removing indices `0, 1, 2` at index 5 gives 2, removing
index `7` at index 5 gives 5, and an event for another playlist changes nothing. -/
theorem tracks_removed_index_witness :
    (tracks_removed demoProvider (demoState (some 1) none 5 0) 1 [0, 1, 2]).g_track_index = 2 ∧
    (tracks_removed demoProvider (demoState (some 1) none 5 0) 1 [7]).g_track_index = 5 ∧
    tracks_removed demoProvider (demoState (some 1) none 5 0) 2 [0, 1, 2] =
      demoState (some 1) none 5 0 :=
  ⟨(tracks_removed_index demoProvider (demoState (some 1) none 5 0) 1 [0, 1, 2]).1 rfl,
   (tracks_removed_index demoProvider (demoState (some 1) none 5 0) 1 [7]).1 rfl,
   (tracks_removed_index demoProvider (demoState (some 1) none 5 0) 2 [0, 1, 2]).2
     (by decide)⟩

theorem playlist_renamed_resets_index (P : Provider) (s : Jukebox) (pl : sp_playlist)
    (h : strcasecmp (P.sp_playlist_name pl).data s.g_listname.data = 0) :
    (playlist_renamed P s pl).g_jukeboxlist = some pl ∧
    (playlist_renamed P s pl).g_track_index = 0 := by
  simp only [playlist_renamed, h, if_true]
  exact ⟨(try_jukebox_start_frame P _).2.1, (try_jukebox_start_frame P _).1⟩

/-- C4 (the code departs from the claim): `playlist_added` and `logged_in`
resolve the playlist without resetting the current track index.  From the
initial state, playlist 1 ("hai") is added and its first track completes
(index 1), the playlist is renamed away, and then playlist 2 ("Hai") is added,
respectively found by `logged_in`: the resolved playlist is 2, the index is
still 1 and the track started is the second one, 21. -/
theorem playlist_added_keeps_index :
    (run (initial "HAI" 0)
        [(demoProvider, Event.playlist_added 1), (demoProvider, Event.track_ended),
         (laterProvider, Event.playlist_renamed 1), (laterProvider, Event.playlist_added 2)]).map
      (fun s => (s.g_jukeboxlist, s.g_track_index, s.g_currenttrack)) =
      some (some 2, 1, some 21) ∧
    (run (initial "HAI" 0)
        [(demoProvider, Event.playlist_added 1), (demoProvider, Event.track_ended),
         (laterProvider, Event.playlist_renamed 1), (laterProvider, Event.logged_in 0)]).map
      (fun s => (s.g_jukeboxlist, s.g_track_index, s.g_currenttrack)) =
      some (some 2, 1, some 21) := by
  constructor <;> decide

/-- The effect of `try_jukebox_start` past its three early returns, with the
track `t` found at the current index. -/
theorem try_jukebox_start_at (P : Provider) (s : Jukebox) (pl : sp_playlist)
    (hj : s.g_jukeboxlist = some pl) (h0 : P.sp_playlist_num_tracks pl ≠ 0)
    (h1 : ¬ P.sp_playlist_num_tracks pl < s.g_track_index) :
    try_jukebox_start P s =
      match P.sp_playlist_track pl s.g_track_index, s.g_currenttrack with
      | none, none => s
      | none, some _ =>
        { s with
          g_currenttrack := none
          trace := s.trace ++ [Cmd.audio_fifo_flush, Cmd.sp_session_player_unload] }
      | some tr, none =>
        if P.sp_track_error tr ≠ SP_ERROR_OK then s
        else
          { s with
            g_currenttrack := some tr
            trace := s.trace ++
              [Cmd.sp_session_player_load tr, Cmd.sp_session_player_play 1] }
      | some tr, some c =>
        if c = tr then s
        else if P.sp_track_error tr ≠ SP_ERROR_OK then
          { s with
            g_currenttrack := none
            trace := s.trace ++ [Cmd.audio_fifo_flush, Cmd.sp_session_player_unload] }
        else
          { s with
            g_currenttrack := some tr
            trace := s.trace ++
              [Cmd.audio_fifo_flush, Cmd.sp_session_player_unload,
               Cmd.sp_session_player_load tr, Cmd.sp_session_player_play 1] } := by
  unfold try_jukebox_start
  simp only [hj, h0, h1, if_false]
  cases ht : P.sp_playlist_track pl s.g_track_index with
  | none =>
    cases hc : s.g_currenttrack with
    | none => simp [hj]
    | some c => simp [hj]
  | some tr =>
    cases hc : s.g_currenttrack with
    | none =>
      by_cases he : P.sp_track_error tr = SP_ERROR_OK
      · simp [he, hc, hj]
      · simp [he, hj]
    | some c =>
      by_cases hct : c = tr
      · subst hct
        by_cases he : P.sp_track_error c = SP_ERROR_OK
        · simp [he, hc, hj]
        · simp [he, hj]
      · have hct2 : ¬ tr = c := fun e => hct e.symm
        by_cases he : P.sp_track_error tr = SP_ERROR_OK
        · simp [he, hct, hct2, hj]
        · simp [he, hct, hct2, hj]

theorem try_jukebox_start_twice (P : Provider) (s : Jukebox) :
    try_jukebox_start P (try_jukebox_start P s) = try_jukebox_start P s := by
  cases hj : s.g_jukeboxlist with
  | none =>
    have e : try_jukebox_start P s = s := by simp [try_jukebox_start, hj]
    rw [e, e]
  | some pl =>
    by_cases h0 : P.sp_playlist_num_tracks pl = 0
    · have e : try_jukebox_start P s = s := by simp [try_jukebox_start, hj, h0]
      rw [e, e]
    · by_cases h1 : P.sp_playlist_num_tracks pl < s.g_track_index
      · have e : try_jukebox_start P s = s := by simp [try_jukebox_start, hj, h0, h1]
        rw [e, e]
      · have fr := try_jukebox_start_frame P s
        have hj2 : (try_jukebox_start P s).g_jukeboxlist = some pl := by
          rw [fr.2.1]; exact hj
        have h12 : ¬ P.sp_playlist_num_tracks pl < (try_jukebox_start P s).g_track_index := by
          rw [fr.1]; exact h1
        rw [try_jukebox_start_at P _ pl hj2 h0 h12, fr.1]
        rw [try_jukebox_start_at P s pl hj h0 h1]
        cases ht : P.sp_playlist_track pl s.g_track_index with
        | none =>
          cases hc : s.g_currenttrack with
          | none => simp [hc]
          | some c => simp
        | some tr =>
          cases hc : s.g_currenttrack with
          | none =>
            by_cases he : P.sp_track_error tr = SP_ERROR_OK
            · simp [he]
            · simp [he, hc]
          | some c =>
            by_cases hct : c = tr
            · simp [hct, hc]
            · by_cases he : P.sp_track_error tr = SP_ERROR_OK
              · simp [he, hct]
              · simp [he, hct]

theorem try_jukebox_start_trace (P : Provider) (s : Jukebox) :
    ∃ cmds, (try_jukebox_start P s).trace = s.trace ++ cmds ∧
      (cmds.filter Cmd.isLoad).length ≤ 1 ∧ (cmds.filter Cmd.isPlay).length ≤ 1 := by
  cases hj : s.g_jukeboxlist with
  | none => exact ⟨[], by simp [try_jukebox_start, hj]⟩
  | some pl =>
    by_cases h0 : P.sp_playlist_num_tracks pl = 0
    · exact ⟨[], by simp [try_jukebox_start, hj, h0]⟩
    · by_cases h1 : P.sp_playlist_num_tracks pl < s.g_track_index
      · exact ⟨[], by simp [try_jukebox_start, hj, h0, h1]⟩
      · rw [try_jukebox_start_at P s pl hj h0 h1]
        cases ht : P.sp_playlist_track pl s.g_track_index with
        | none =>
          cases hc : s.g_currenttrack with
          | none => exact ⟨[], by simp⟩
          | some c =>
            exact ⟨[Cmd.audio_fifo_flush, Cmd.sp_session_player_unload], by simp [Cmd.isLoad, Cmd.isPlay]⟩
        | some tr =>
          cases hc : s.g_currenttrack with
          | none =>
            by_cases he : P.sp_track_error tr = SP_ERROR_OK
            · exact ⟨[Cmd.sp_session_player_load tr, Cmd.sp_session_player_play 1],
                by simp [he, Cmd.isLoad, Cmd.isPlay]⟩
            · exact ⟨[], by simp [he]⟩
          | some c =>
            by_cases hct : c = tr
            · exact ⟨[], by simp [hct]⟩
            · by_cases he : P.sp_track_error tr = SP_ERROR_OK
              · exact ⟨[Cmd.audio_fifo_flush, Cmd.sp_session_player_unload,
                  Cmd.sp_session_player_load tr, Cmd.sp_session_player_play 1],
                  by simp [he, hct, Cmd.isLoad, Cmd.isPlay]⟩
              · exact ⟨[Cmd.audio_fifo_flush, Cmd.sp_session_player_unload],
                  by simp [he, hct, Cmd.isLoad, Cmd.isPlay]⟩

/-- C5: `try_jukebox_start` is idempotent.  Against the same library state, the
second of two consecutive calls returns the state the first call left (same
current track handle, track index, playlist handle and command trace, so it
issues no flush, unload, load or play), and the two calls together issue at most
one `load` and at most one `play`. -/
theorem try_jukebox_start_idempotent (P : Provider) (s : Jukebox) :
    try_jukebox_start P (try_jukebox_start P s) = try_jukebox_start P s ∧
    ∃ cmds, (try_jukebox_start P (try_jukebox_start P s)).trace = s.trace ++ cmds ∧
      (cmds.filter Cmd.isLoad).length ≤ 1 ∧ (cmds.filter Cmd.isPlay).length ≤ 1 := by
  refine ⟨try_jukebox_start_twice P s, ?_⟩
  rw [try_jukebox_start_twice]
  exact try_jukebox_start_trace P s

/-- C6 as stated fails: with delete-after-play off and no track loaded,
`track_ended` does not advance the index (playlist 1 resolved, index 0, index 1
in bounds: the index stays 0 and nothing is issued); and with track 11 loaded at
index 1, the new index 2 is in bounds but its track 12 carries a load error, so
the index advances and only the unload is issued, no load or play. -/
theorem track_ended_advance_counterexample :
    ((track_ended demoProvider (demoState (some 1) none 0 0)).g_track_index = 0 ∧
      (track_ended demoProvider (demoState (some 1) none 0 0)).trace = [] ∧
      (0 : Int) ≤ 0 + 1 ∧ (0 : Int) + 1 < demoProvider.sp_playlist_num_tracks 1) ∧
    ((track_ended demoProvider (demoState (some 1) (some 11) 1 0)).g_track_index = 2 ∧
      (track_ended demoProvider (demoState (some 1) (some 11) 1 0)).trace =
        [Cmd.sp_session_player_unload] ∧
      (track_ended demoProvider (demoState (some 1) (some 11) 1 0)).g_currenttrack = none ∧
      (0 : Int) ≤ 2 ∧ (2 : Int) < demoProvider.sp_playlist_num_tracks 1) := by
  decide

/-- C6 (amended): with delete-after-play off and a track loaded, `track_ended`
advances the current track index by exactly 1; if moreover a playlist is
resolved, the new index is within its bounds and the track at the new index is
non-null and carries no load error, then after the unload exactly one load+play
pair is issued, for that track, which becomes the current track handle. -/
theorem track_ended_advances (P : Provider) (s : Jukebox) (c : sp_track)
    (hrm : s.g_remove_tracks = 0) (hc : s.g_currenttrack = some c) :
    (track_ended P s).g_track_index = s.g_track_index + 1 ∧
    ∀ (pl : sp_playlist) (T : sp_track),
      s.g_jukeboxlist = some pl →
      0 ≤ s.g_track_index + 1 →
      s.g_track_index + 1 < P.sp_playlist_num_tracks pl →
      P.sp_playlist_track pl (s.g_track_index + 1) = some T →
      P.sp_track_error T = SP_ERROR_OK →
      track_ended P s =
        { s with
          g_track_index := s.g_track_index + 1
          g_currenttrack := some T
          trace := s.trace ++
            [Cmd.sp_session_player_unload, Cmd.sp_session_player_load T,
             Cmd.sp_session_player_play 1] } := by
  have hte : track_ended P s =
      try_jukebox_start P
        { s with
          g_currenttrack := none
          trace := s.trace ++ [Cmd.sp_session_player_unload]
          g_track_index := s.g_track_index + 1 } := by
    simp [track_ended, hc, hrm]
  refine ⟨by rw [hte, (try_jukebox_start_frame P _).1], ?_⟩
  intro pl T hj hlo hhi hT he
  have h := try_jukebox_start_at P
    { s with
      g_currenttrack := none
      trace := s.trace ++ [Cmd.sp_session_player_unload]
      g_track_index := s.g_track_index + 1 } pl hj (by show P.sp_playlist_num_tracks pl ≠ 0; omega)
      (by show ¬ P.sp_playlist_num_tracks pl < s.g_track_index + 1; omega)
  rw [hte, h]
  simp [hT, he]

/-- Instance of C6 (amended): track 10 of playlist 1 is loaded at index 0; after
`track_ended` the index is 1 and track 11 is loaded and played. -/
theorem track_ended_advances_witness :
    track_ended demoProvider (demoState (some 1) (some 10) 0 0) =
      { demoState (some 1) (some 10) 0 0 with
        g_track_index := 1
        g_currenttrack := some 11
        trace := [Cmd.sp_session_player_unload, Cmd.sp_session_player_load 11,
                  Cmd.sp_session_player_play 1] } :=
  (track_ended_advances demoProvider (demoState (some 1) (some 10) 0 0) 10 rfl rfl).2
    1 11 rfl (by decide) (by decide) rfl rfl

/-- C7: with delete-after-play on and a track loaded, `track_ended` clears the
current track handle and issues exactly an unload followed by one removal
request to the resolved playlist for the one index 0; the current track index
and everything else stay as they were, and no load or play is issued. -/
theorem track_ended_delete_after_play (P : Provider) (s : Jukebox)
    (hrm : s.g_remove_tracks ≠ 0) (hc : s.g_currenttrack ≠ none) :
    track_ended P s =
      { s with
        g_currenttrack := none
        trace := s.trace ++
          [Cmd.sp_session_player_unload, Cmd.sp_playlist_remove_tracks s.g_jukeboxlist [0]] } := by
  simp [track_ended, hc, hrm]

/-- Instance of C7: track 11 of playlist 1 loaded at index 1, delete-after-play on. -/
theorem track_ended_delete_after_play_witness :
    track_ended demoProvider (demoState (some 1) (some 11) 1 1) =
      { demoState (some 1) (some 11) 1 1 with
        g_currenttrack := none
        trace := [Cmd.sp_session_player_unload,
                  Cmd.sp_playlist_remove_tracks (some 1) [0]] } :=
  track_ended_delete_after_play demoProvider (demoState (some 1) (some 11) 1 1)
    (by decide) (by decide)

/-- C9 as stated fails: playlist 1 is resolved and holds one track, the current
index is 1 (not above the track count) where the library has no track, and
track 11 is loaded.  `try_jukebox_start` then flushes the queue, unloads and
clears the current track handle. -/
theorem try_jukebox_start_null_track_counterexample :
    (demoState (some 1) (some 11) 1 0).g_jukeboxlist = some 1 ∧
    shrunkProvider.sp_playlist_num_tracks 1 ≠ 0 ∧
    shrunkProvider.sp_playlist_track 1 (demoState (some 1) (some 11) 1 0).g_track_index = none ∧
    (try_jukebox_start shrunkProvider (demoState (some 1) (some 11) 1 0)).trace =
      [Cmd.audio_fifo_flush, Cmd.sp_session_player_unload] ∧
    (try_jukebox_start shrunkProvider (demoState (some 1) (some 11) 1 0)).g_currenttrack ≠
      (demoState (some 1) (some 11) 1 0).g_currenttrack := by
  decide

/-- C9 (amended): with a resolved, non-empty playlist whose track at the current
index is null, `try_jukebox_start` changes nothing and issues nothing when no
track is loaded, or when the playlist has fewer tracks than the index; when a
track is loaded and the track count is not below the index, it issues exactly a
flush of the sample queue and an unload and clears the current track handle.
In no case does it issue a load or a play. -/
theorem try_jukebox_start_null_track (P : Provider) (s : Jukebox) (pl : sp_playlist)
    (hj : s.g_jukeboxlist = some pl) (h0 : P.sp_playlist_num_tracks pl ≠ 0)
    (hT : P.sp_playlist_track pl s.g_track_index = none) :
    (s.g_currenttrack = none ∨ P.sp_playlist_num_tracks pl < s.g_track_index →
      try_jukebox_start P s = s) ∧
    (s.g_currenttrack ≠ none → ¬ P.sp_playlist_num_tracks pl < s.g_track_index →
      try_jukebox_start P s =
        { s with
          g_currenttrack := none
          trace := s.trace ++ [Cmd.audio_fifo_flush, Cmd.sp_session_player_unload] }) ∧
    (∃ cmds, (try_jukebox_start P s).trace = s.trace ++ cmds ∧
      ∀ c ∈ cmds, c.isLoad = false ∧ c.isPlay = false) := by
  by_cases h1 : P.sp_playlist_num_tracks pl < s.g_track_index
  · have e : try_jukebox_start P s = s := by simp [try_jukebox_start, hj, h0, h1]
    exact ⟨fun _ => e, fun _ h => absurd h1 h, ⟨[], by simp [e]⟩⟩
  · have e := try_jukebox_start_at P s pl hj h0 h1
    rw [hT] at e
    cases hc : s.g_currenttrack with
    | none =>
      rw [hc] at e
      exact ⟨fun _ => e, fun h => absurd rfl h, ⟨[], by simp [e]⟩⟩
    | some c =>
      rw [hc] at e
      refine ⟨fun h => ?_, fun _ _ => e, ⟨[Cmd.audio_fifo_flush, Cmd.sp_session_player_unload], ?_⟩⟩
      · rcases h with h | h
        · cases h
        · exact absurd h h1
      · rw [e]
        simp [Cmd.isLoad, Cmd.isPlay]

/-- Instance of C9 (amended): playlist 1 resolved with a single track, index 1,
nothing loaded: `try_jukebox_start` leaves the state as it is. -/
theorem try_jukebox_start_null_track_witness :
    try_jukebox_start shrunkProvider (demoState (some 1) none 1 0) =
      demoState (some 1) none 1 0 :=
  (try_jukebox_start_null_track shrunkProvider (demoState (some 1) none 1 0) 1 rfl
    (by decide) rfl).1 (Or.inl rfl)

/-- C10: with a resolved playlist holding at least one track and not fewer
tracks than the current index, whose track `T` at that index is non-null, has no
load error and is not the current track handle, `try_jukebox_start` sets the
current track handle to `T`, leaves the index (and all else) unchanged, and
issues exactly: a flush and an unload if some track was loaded, then `load T`,
then `play`. -/
theorem try_jukebox_start_starts (P : Provider) (s : Jukebox) (pl : sp_playlist)
    (T : sp_track)
    (hj : s.g_jukeboxlist = some pl) (h0 : 1 ≤ P.sp_playlist_num_tracks pl)
    (h1 : ¬ P.sp_playlist_num_tracks pl < s.g_track_index)
    (hT : P.sp_playlist_track pl s.g_track_index = some T)
    (he : P.sp_track_error T = SP_ERROR_OK)
    (hne : s.g_currenttrack ≠ some T) :
    try_jukebox_start P s =
      { s with
        g_currenttrack := some T
        trace := s.trace ++
          (if s.g_currenttrack ≠ none then
            [Cmd.audio_fifo_flush, Cmd.sp_session_player_unload] else []) ++
          [Cmd.sp_session_player_load T, Cmd.sp_session_player_play 1] } := by
  have e := try_jukebox_start_at P s pl hj (by omega) h1
  rw [hT] at e
  cases hc : s.g_currenttrack with
  | none =>
    rw [hc] at e
    rw [e]
    simp [he]
  | some c =>
    rw [hc] at e
    have hct : c ≠ T := fun h => hne (by rw [hc, h])
    rw [e]
    simp [he, hct]

/-- Instance of C10: playlist 1 resolved, index 1 (track 11), track 10 loaded. -/
theorem try_jukebox_start_starts_witness :
    try_jukebox_start demoProvider (demoState (some 1) (some 10) 1 0) =
      { demoState (some 1) (some 10) 1 0 with
        g_currenttrack := some 11
        trace := [Cmd.audio_fifo_flush, Cmd.sp_session_player_unload,
                  Cmd.sp_session_player_load 11, Cmd.sp_session_player_play 1] } :=
  try_jukebox_start_starts demoProvider (demoState (some 1) (some 10) 1 0) 1 11 rfl
    (by decide) (by decide) rfl rfl (by decide)

/-! ### The player follows the current track handle -/

theorem run_callbacks_keeps_flag (w : List Callback) (n : Notifier)
    (h : n.g_notify_do ≠ 0 ∨ n.g_playback_done ≠ 0) :
    (run_callbacks n w).g_notify_do ≠ 0 ∨ (run_callbacks n w).g_playback_done ≠ 0 := by
  induction w generalizing n with
  | nil => exact h
  | cons c rest ih =>
    cases c with
    | notify_main_thread =>
      exact ih (notify_main_thread n) (Or.inl (by simp [notify_main_thread]))
    | end_of_track =>
      exact ih (end_of_track n) (Or.inr (by simp [end_of_track]))

theorem run_callbacks_sets_flag (w : List Callback) (n : Notifier) (hw : w ≠ []) :
    (run_callbacks n w).g_notify_do ≠ 0 ∨ (run_callbacks n w).g_playback_done ≠ 0 := by
  cases w with
  | nil => exact absurd rfl hw
  | cons c rest =>
    cases c with
    | notify_main_thread =>
      exact run_callbacks_keeps_flag rest (notify_main_thread n)
        (Or.inl (by simp [notify_main_thread]))
    | end_of_track =>
      exact run_callbacks_keeps_flag rest (end_of_track n)
        (Or.inr (by simp [end_of_track]))

theorem cond_wait_loop_flag_set (n : Notifier) (now : Int) (wakes : List Wake)
    (h : n.g_notify_do ≠ 0 ∨ n.g_playback_done ≠ 0) :
    cond_wait_loop n now wakes = some { flags := n, calls := [], time := now } := by
  have hc : ¬ (n.g_notify_do = 0 ∧ n.g_playback_done = 0) := by
    rintro ⟨h1, h2⟩
    rcases h with h | h
    · exact h h1
    · exact h h2
  cases wakes with
  | nil => simp [cond_wait_loop, hc]
  | cons w rest => simp [cond_wait_loop, hc]

theorem cond_wait_loop_exit (wakes : List Wake) (n : Notifier) (now : Int)
    (r : WaitReturn) (h : cond_wait_loop n now wakes = some r) :
    (r.flags.g_notify_do ≠ 0 ∨ r.flags.g_playback_done ≠ 0) ∧
    ∀ c ∈ r.calls, c = WaitCall.pthread_cond_wait := by
  induction wakes generalizing n now r with
  | nil =>
    by_cases hc : n.g_notify_do = 0 ∧ n.g_playback_done = 0
    · simp [cond_wait_loop, hc] at h
    · simp only [cond_wait_loop, hc, if_false, Option.some.injEq] at h
      subst h
      refine ⟨?_, by simp⟩
      by_contra hx
      exact hc (by simpa [not_or] using hx)
  | cons w rest ih =>
    by_cases hc : n.g_notify_do = 0 ∧ n.g_playback_done = 0
    · simp only [cond_wait_loop, hc, and_self, if_true, Option.map_eq_some'] at h
      obtain ⟨r0, hr0, e⟩ := h
      subst e
      have h0 := ih (run_callbacks n w.callbacks) w.time r0 hr0
      refine ⟨h0.1, ?_⟩
      intro c hcm
      rcases List.mem_cons.mp hcm with e | hm
      · exact e
      · exact h0.2 c hm
    · simp only [cond_wait_loop, hc, if_false, Option.some.injEq] at h
      subst h
      refine ⟨?_, by simp⟩
      by_contra hx
      exact hc (by simpa [not_or] using hx)

theorem cond_wait_loop_blocks (wakes : List Wake) (n : Notifier) (now : Int)
    (hd : n.g_notify_do = 0) (hp : n.g_playback_done = 0)
    (r : WaitReturn) (h : cond_wait_loop n now wakes = some r) :
    r.calls ≠ [] := by
  cases wakes with
  | nil => simp [cond_wait_loop, hd, hp] at h
  | cons w rest =>
    simp only [cond_wait_loop, hd, hp, and_self, if_true, Option.map_eq_some'] at h
    obtain ⟨r0, _, e⟩ := h
    subst e
    simp

theorem cond_wait_loop_never (wakes : List Wake) (n : Notifier) (now : Int)
    (hd : n.g_notify_do = 0) (hp : n.g_playback_done = 0)
    (hw : ∀ w ∈ wakes, w.callbacks = []) :
    cond_wait_loop n now wakes = none := by
  induction wakes generalizing now with
  | nil => simp [cond_wait_loop, hd, hp]
  | cons w rest ih =>
    have e : w.callbacks = [] := hw w (List.mem_cons_self _ _)
    simp only [cond_wait_loop, hd, hp, and_self, if_true, e, run_callbacks,
      Option.map_eq_none']
    exact ih w.time (fun w hm => hw w (List.mem_cons_of_mem _ hm))

theorem cond_wait_loop_returns (wakes : List Wake) (n : Notifier) (now : Int)
    (hw : ∃ w ∈ wakes, w.callbacks ≠ []) :
    (cond_wait_loop n now wakes).isSome = true := by
  induction wakes generalizing n now with
  | nil =>
    obtain ⟨w, hm, _⟩ := hw
    cases hm
  | cons w rest ih =>
    by_cases hc : n.g_notify_do = 0 ∧ n.g_playback_done = 0
    · simp only [cond_wait_loop, hc, and_self, if_true, Option.isSome_map']
      by_cases hwe : w.callbacks = []
      · apply ih
        obtain ⟨w2, hm, hne⟩ := hw
        rcases List.mem_cons.mp hm with e | hm2
        · exact absurd (e ▸ hwe) hne
        · exact ⟨w2, hm2, hne⟩
      · rw [cond_wait_loop_flag_set _ _ rest (run_callbacks_sets_flag w.callbacks n hwe)]
        rfl
    · simp [cond_wait_loop, hc]

/-- The deadline put in `ts` is `next_timeout` milliseconds after the clock
reading, in nanoseconds. -/
theorem deadline_eq (next_timeout now_sec now_nsec : Int) :
    (now_sec + Int.tdiv next_timeout 1000) * NSEC_PER_SEC +
        (now_nsec + Int.tmod next_timeout 1000 * 1000000) =
      now_sec * NSEC_PER_SEC + now_nsec + next_timeout * 1000000 := by
  have h := Int.tdiv_add_tmod next_timeout 1000
  unfold NSEC_PER_SEC
  omega

theorem timedwait_valid (tv_sec tv_nsec now : Int) (n : Notifier) (wakes : List Wake)
    (h0 : 0 ≤ tv_nsec) (h1 : tv_nsec < NSEC_PER_SEC)
    (hlate : now < tv_sec * NSEC_PER_SEC + tv_nsec) :
    (∀ w rest, wakes = w :: rest → w.time < tv_sec * NSEC_PER_SEC + tv_nsec →
      pthread_cond_timedwait tv_sec tv_nsec now n wakes =
        (run_callbacks n w.callbacks, w.time)) ∧
    ((wakes = [] ∨ ∃ w rest, wakes = w :: rest ∧ tv_sec * NSEC_PER_SEC + tv_nsec ≤ w.time) →
      pthread_cond_timedwait tv_sec tv_nsec now n wakes =
        (n, tv_sec * NSEC_PER_SEC + tv_nsec)) := by
  have hv : ¬ (tv_nsec < 0 ∨ NSEC_PER_SEC ≤ tv_nsec) := by omega
  have hl : ¬ (tv_sec * NSEC_PER_SEC + tv_nsec ≤ now) := by omega
  constructor
  · intro w rest e hw
    subst e
    simp [pthread_cond_timedwait, hv, hl, hw]
  · rintro (e | ⟨w, rest, e, hw⟩)
    · subst e
      simp [pthread_cond_timedwait, hv, hl]
    · subst e
      have hw2 : ¬ (w.time < tv_sec * NSEC_PER_SEC + tv_nsec) := by omega
      simp [pthread_cond_timedwait, hv, hl, hw2]

/-- C11 as stated fails, in both halves.  Timeout 0 with both flags clear: if
nothing wakes the thread the wait never returns; woken once with no callback
and then by `notify_main_thread`, it has blocked in `pthread_cond_wait` twice.
Timeout 1500 ms at clock time 100 s: a spurious wakeup 1 ms later ends the wait
with both flags clear, 1499 ms before the deadline.  Timeout 1999 ms at clock
time 100.999 s: the deadline has `tv_nsec = 1998000000`, not a valid `timespec`,
and the call returns at once, both flags clear and no time elapsed. -/
theorem main_wait_zero_timeout_counterexample :
    (main_wait 0 100 0 { g_notify_do := 0, g_playback_done := 0 } [] = none ∧
      main_wait 0 100 0 { g_notify_do := 0, g_playback_done := 0 }
          [{ time := 100200000000, callbacks := [] },
           { time := 100300000000, callbacks := [Callback.notify_main_thread] }] =
        some { flags := { g_notify_do := 1, g_playback_done := 0 }
               calls := [WaitCall.pthread_cond_wait, WaitCall.pthread_cond_wait]
               time := 100300000000 }) ∧
    main_wait 1500 100 0 { g_notify_do := 0, g_playback_done := 0 }
        [{ time := 100001000000, callbacks := [] }] =
      some { flags := { g_notify_do := 0, g_playback_done := 0 }
             calls := [WaitCall.pthread_cond_timedwait 101 500000000]
             time := 100001000000 } ∧
    main_wait 1999 100 999000000 { g_notify_do := 0, g_playback_done := 0 } [] =
      some { flags := { g_notify_do := 0, g_playback_done := 0 }
             calls := [WaitCall.pthread_cond_timedwait 101 1998000000]
             time := 100999000000 } := by
  decide

/-- C11 (amended): in the wait of the control loop, with a timeout of 0 the wait
returns at once, without a blocking call, when one of the two flags is already
set; when both are clear it blocks in the untimed `pthread_cond_wait`, again
after every wakeup that finds both flags clear, so it returns only with a flag
set and after at least one blocking call, never returns if no callback runs, and
does return once a callback has run.  With a non-zero timeout it makes exactly
one `pthread_cond_timedwait`, for every value of the flags; when the deadline it
computes is a valid `timespec` and the timeout is positive, that call ends at
the first wakeup of the thread if this comes before the deadline, with the flags
as the callbacks run until then left them, and otherwise when the timeout
elapses, `next_timeout` milliseconds after the clock reading, with the flags
unchanged. -/
theorem main_wait_behaviour (next_timeout now_sec now_nsec : Int) (n : Notifier)
    (wakes : List Wake) :
    (next_timeout = 0 → n.g_notify_do ≠ 0 ∨ n.g_playback_done ≠ 0 →
      main_wait next_timeout now_sec now_nsec n wakes =
        some { flags := n, calls := [], time := now_sec * NSEC_PER_SEC + now_nsec }) ∧
    (next_timeout = 0 → n.g_notify_do = 0 → n.g_playback_done = 0 →
      (∀ r, main_wait next_timeout now_sec now_nsec n wakes = some r →
        r.calls ≠ [] ∧ (∀ c ∈ r.calls, c = WaitCall.pthread_cond_wait) ∧
        (r.flags.g_notify_do ≠ 0 ∨ r.flags.g_playback_done ≠ 0)) ∧
      ((∀ w ∈ wakes, w.callbacks = []) →
        main_wait next_timeout now_sec now_nsec n wakes = none) ∧
      ((∃ w ∈ wakes, w.callbacks ≠ []) →
        (main_wait next_timeout now_sec now_nsec n wakes).isSome = true)) ∧
    (next_timeout ≠ 0 →
      ∃ r, main_wait next_timeout now_sec now_nsec n wakes = some r ∧
        r.calls = [WaitCall.pthread_cond_timedwait
          (now_sec + Int.tdiv next_timeout 1000)
          (now_nsec + Int.tmod next_timeout 1000 * 1000000)] ∧
        (0 < next_timeout →
          0 ≤ now_nsec + Int.tmod next_timeout 1000 * 1000000 →
          now_nsec + Int.tmod next_timeout 1000 * 1000000 < NSEC_PER_SEC →
          (∀ w rest, wakes = w :: rest →
            w.time < now_sec * NSEC_PER_SEC + now_nsec + next_timeout * 1000000 →
            r.flags = run_callbacks n w.callbacks ∧ r.time = w.time) ∧
          ((wakes = [] ∨ ∃ w rest, wakes = w :: rest ∧
              now_sec * NSEC_PER_SEC + now_nsec + next_timeout * 1000000 ≤ w.time) →
            r.flags = n ∧
            r.time = now_sec * NSEC_PER_SEC + now_nsec + next_timeout * 1000000))) := by
  refine ⟨fun h0 hf => ?_, fun h0 hd hp => ⟨fun r hr => ?_, fun hw => ?_, fun hw => ?_⟩,
    fun hne => ?_⟩
  · simp only [main_wait, h0, if_true]
    exact cond_wait_loop_flag_set n _ wakes hf
  · simp only [main_wait, h0, if_true] at hr
    have hx := cond_wait_loop_exit wakes n _ r hr
    exact ⟨cond_wait_loop_blocks wakes n _ hd hp r hr, hx.2, hx.1⟩
  · simp only [main_wait, h0, if_true]
    exact cond_wait_loop_never wakes n _ hd hp hw
  · simp only [main_wait, h0, if_true]
    exact cond_wait_loop_returns wakes n _ hw
  · refine ⟨_, by simp only [main_wait, hne, if_false]; rfl, rfl, ?_⟩
    intro hpos hv0 hv1
    have hd := deadline_eq next_timeout now_sec now_nsec
    have hlate : now_sec * NSEC_PER_SEC + now_nsec <
        (now_sec + Int.tdiv next_timeout 1000) * NSEC_PER_SEC +
          (now_nsec + Int.tmod next_timeout 1000 * 1000000) := by
      rw [hd]; omega
    have ht := timedwait_valid (now_sec + Int.tdiv next_timeout 1000)
      (now_nsec + Int.tmod next_timeout 1000 * 1000000)
      (now_sec * NSEC_PER_SEC + now_nsec) n wakes hv0 hv1 hlate
    rw [hd] at ht
    constructor
    · intro w rest e hw
      have := ht.1 w rest e hw
      exact ⟨by simp [this], by simp [this]⟩
    · intro hcase
      have := ht.2 hcase
      exact ⟨by simp [this], by simp [this]⟩

/-- Instance of C11 (amended): timeout 0 with `g_playback_done` already set
returns at once; timeout 1500 ms at clock time 100 s with both flags clear and
no wakeup makes one timed wait that ends at 101.5 s, the flags still clear. -/
theorem main_wait_behaviour_witness :
    main_wait 0 100 0 { g_notify_do := 0, g_playback_done := 1 } [] =
      some { flags := { g_notify_do := 0, g_playback_done := 1 }
             calls := []
             time := 100000000000 } ∧
    ∃ r, main_wait 1500 100 0 { g_notify_do := 0, g_playback_done := 0 } [] = some r ∧
      r.calls = [WaitCall.pthread_cond_timedwait 101 500000000] ∧
      r.flags = { g_notify_do := 0, g_playback_done := 0 } ∧
      r.time = 101500000000 :=
  ⟨(main_wait_behaviour 0 100 0 { g_notify_do := 0, g_playback_done := 1 } []).1 rfl
      (Or.inr (by decide)),
   match (main_wait_behaviour 1500 100 0 { g_notify_do := 0, g_playback_done := 0 } []).2.2
      (by decide) with
   | ⟨r, hr, hc, ht⟩ =>
     ⟨r, hr, hc, ((ht (by decide) (by decide) (by decide)).2 (Or.inl rfl)).1,
       ((ht (by decide) (by decide) (by decide)).2 (Or.inl rfl)).2⟩⟩

/-! ## The `playlists` array stays within its capacity -/

theorem tracks_added_full (P : Provider) (s : Jukebox) (pl : sp_playlist) (n : Int)
    (h : playlists_capacity ≤ s.playlists.length) :
    tracks_added P s pl n = none := by
  simp [tracks_added, h]

theorem logged_in_loop_playlists (P : Provider) (l : List Nat) (s : Jukebox) :
    (l.foldl (fun acc i => logged_in_body P acc (i : Int)) s).playlists = s.playlists := by
  induction l generalizing s with
  | nil => rfl
  | cons i rest ih =>
    have hbody : (logged_in_body P s (i : Int)).playlists = s.playlists := by
      unfold logged_in_body
      simp only
      split_ifs
      · rw [(try_jukebox_start_frame P _).2.2.2.2]
      · rfl
    exact (ih (logged_in_body P s (i : Int))).trans hbody

theorem step_playlists (P : Provider) (s s1 : Jukebox) (e : Event)
    (hb : s.playlists.length ≤ playlists_capacity) (hs : step P s e = some s1) :
    s1.playlists.length ≤ playlists_capacity := by
  cases e with
  | try_jukebox_start =>
    simp only [step, Option.some.injEq] at hs
    subst hs
    rw [(try_jukebox_start_frame P s).2.2.2.2]; exact hb
  | tracks_added pl n =>
    simp only [step, tracks_added] at hs
    split_ifs at hs with hfull
    · simp only [Option.some.injEq] at hs
      subst hs
      simp only [List.length_append, List.length_singleton]
      omega
    · simp only [Option.some.injEq] at hs
      subst hs
      rw [(try_jukebox_start_frame P _).2.2.2.2]
      simp only [List.length_append, List.length_singleton]
      omega
  | tracks_removed pl tracks =>
    simp only [step, Option.some.injEq] at hs
    subst hs
    unfold tracks_removed
    simp only
    split_ifs
    · exact hb
    · rw [(try_jukebox_start_frame P _).2.2.2.2]; exact hb
  | tracks_moved pl =>
    simp only [step, Option.some.injEq] at hs
    subst hs
    unfold tracks_moved
    split_ifs
    · exact hb
    · rw [(try_jukebox_start_frame P s).2.2.2.2]; exact hb
  | playlist_renamed pl =>
    simp only [step, Option.some.injEq] at hs
    subst hs
    unfold playlist_renamed
    simp only
    split_ifs
    · rw [(try_jukebox_start_frame P _).2.2.2.2]; exact hb
    · exact hb
    · exact hb
  | playlist_added pl =>
    simp only [step, Option.some.injEq] at hs
    subst hs
    unfold playlist_added
    simp only
    split_ifs
    · rw [(try_jukebox_start_frame P _).2.2.2.2]; exact hb
    · exact hb
  | playlist_removed pl =>
    simp only [step, Option.some.injEq] at hs
    subst hs
    exact hb
  | logged_in error =>
    simp only [step, logged_in] at hs
    split_ifs at hs
    simp only [Option.some.injEq] at hs
    subst hs
    rw [logged_in_loop_playlists]; exact hb
  | metadata_updated =>
    simp only [step, Option.some.injEq] at hs
    subst hs
    unfold metadata_updated
    rw [(try_jukebox_start_frame P s).2.2.2.2]; exact hb
  | track_ended =>
    simp only [step, Option.some.injEq] at hs
    subst hs
    unfold track_ended
    simp only
    split_ifs
    · exact hb
    · rw [(try_jukebox_start_frame P _).2.2.2.2]; exact hb
    · exact hb
  | play_token_lost =>
    simp only [step, Option.some.injEq] at hs
    subst hs
    unfold play_token_lost
    simp only
    split_ifs
    · exact hb
    · exact hb

/-- In every state reached from the initial state the list `playlists` fits the
array `playlists[100]`. -/
theorem run_playlists_bounded (evs : List (Provider × Event)) (s s1 : Jukebox)
    (hb : s.playlists.length ≤ playlists_capacity) (hr : run s evs = some s1) :
    s1.playlists.length ≤ playlists_capacity := by
  induction evs generalizing s with
  | nil =>
    simp only [run, Option.some.injEq] at hr
    subst hr
    exact hb
  | cons pe rest ih =>
    obtain ⟨P, e⟩ := pe
    simp only [run] at hr
    cases hst : step P s e with
    | none => rw [hst] at hr; cases hr
    | some s2 =>
      rw [hst] at hr
      exact ih s2 (step_playlists P s s2 e hb hst) hr

/-! ## The current track index stays non-negative -/

end PandaUI
